import Mathlib

/-!
Shallow embedding of src/generate_midi_manifest.py.

The script walks a root directory (base = "assets/midi") with os.walk,
sorting dirs and files at each level, keeps the files whose lowercased
name ends with ".mid" or ".midi", turns each into a relative path with
separators replaced by forward slashes, sorts the collected list, writes
it as JSON (ensure_ascii=False, indent=2) and prints a one-line count
summary.

Modelling choices:
* a directory tree is a mutual inductive (FSTree for a directory node,
  FSDirs for its list of named subdirectories); the order of the lists
  is the enumeration order the operating system reports;
* the root is an Option FSTree: none models a root that cannot be
  scanned (missing, unreadable, not a directory) — os.walk with its
  default onerror = None swallows the OSError and yields nothing;
* the platform separator os.sep is a Char parameter;
* a failure to open or write the output file is a Bool parameter
  writeOk; on failure the uncaught OSError aborts the script before the
  print statement with a non-zero exit code (Python exits with 1 on an
  uncaught exception); the content of the output file after a failed
  write is not modelled;
* machine strings are Lean strings (sequences of code points, as in
  Python); str.lower of Python agrees with Char.toLower mapping on the
  ASCII range, which is all the matching rule inspects.
-/

mutual

/-- A directory node: subdirectories (with names) and plain file names,
in the order the operating system enumerates them. -/
inductive FSTree : Type where
  | node (dirs : FSDirs) (files : List String) : FSTree

/-- A list of named subdirectories of a node. -/
inductive FSDirs : Type where
  | nil : FSDirs
  | cons (name : String) (tree : FSTree) (rest : FSDirs) : FSDirs

end

/-- Models the string comparison of list.sort() in Python: plain
lexicographic comparison of the code point sequences of the two strings.
List.lt on the character data is exactly that order, and a precedes b
when b is not below a. -/
def pyLE (a b : String) : Prop := ¬ List.lt b.data a.data

instance : DecidableRel pyLE := fun a b =>
  @instDecidableNot _ (List.hasDecidableLt b.data a.data)

/-- Comparison used to model list.sort() on walked subdirectory results:
Python sorts the dirs list of names; here each name is paired with the
walk of its subtree, and the stable sort on the name component agrees
with sorting the names first and walking in that order. -/
def dirLE (a b : String × List (List String × String)) : Prop := pyLE a.1 b.1

instance : DecidableRel dirLE := fun a b => inferInstanceAs (Decidable (pyLE a.1 b.1))

mutual

/-- Models the traversal loop over os.walk(base) in the script: at each
directory, dirs.sort() and files.sort() run first, then the files of the
current directory are visited, then each subdirectory in sorted order.
Each visited file is reported as (list of directory names from the root,
file name). -/
def walkFiles : FSTree → List (List String × String)
  | FSTree.node dirs files =>
    ((files.insertionSort pyLE).map (fun f => (([] : List String), f))) ++
    (((walkDirs dirs).insertionSort dirLE).flatMap
      (fun dw => dw.2.map (fun cf => (dw.1 :: cf.1, cf.2))))

/-- Walks each named subtree, keeping enumeration order. -/
def walkDirs : FSDirs → List (String × List (List String × String))
  | FSDirs.nil => []
  | FSDirs.cons name tree rest => (name, walkFiles tree) :: walkDirs rest

end

mutual

/-- The files under a tree in raw enumeration order, with no sorting at
any level: two trees with the same rawFiles multiset describe the same
filesystem state enumerated in different orders. -/
def rawFiles : FSTree → List (List String × String)
  | FSTree.node dirs files =>
    (files.map (fun f => (([] : List String), f))) ++ rawDirs dirs

/-- Raw files of each named subtree, in enumeration order. -/
def rawDirs : FSDirs → List (List String × String)
  | FSDirs.nil => []
  | FSDirs.cons name tree rest =>
    ((rawFiles tree).map (fun cf => (name :: cf.1, cf.2))) ++ rawDirs rest

end

/-- Models str.lower() of Python on the file name: Char.toLower lowers
exactly the ASCII uppercase letters, which agrees with Python on the
ASCII range inspected by the matching rule. -/
def pyLower (s : String) : String := String.mk (s.data.map Char.toLower)

/-- Models str.endswith of Python for one suffix: the code point
sequence of the suffix is a suffix of the code point sequence of the
string. -/
def pyEndsWith (s suffix : String) : Bool := suffix.data.isSuffixOf s.data

/-- Models the test f.lower().endswith((chr(46) mid, chr(46) midi)) of
line 8: endswith on a tuple succeeds when any of the suffixes matches. -/
def matchesMidi (f : String) : Bool :=
  pyEndsWith (pyLower f) (".mid") || pyEndsWith (pyLower f) (".midi")

/-- Models rel.replace(os.sep, chr(47)) of line 10 for the one-character
pattern os.sep: every occurrence of the separator character is replaced
by a forward slash. -/
def replaceChar (s : String) (old new : Char) : String :=
  String.mk (s.data.map (fun c => if c = old then new else c))

/-- Models os.path.relpath(os.path.join(root, f), base) of line 9: for a
file at directory components comps under the base, the relative path is
the components followed by the file name, joined with the platform
separator. -/
def relPath (sep : Char) (comps : List String) (f : String) : String :=
  String.intercalate (String.mk [sep]) (comps ++ [f])

/-- The canonical relative path appended to the paths list on line 10:
the relative path with every separator replaced by a forward slash. -/
def normRel (sep : Char) (comps : List String) (f : String) : String :=
  replaceChar (relPath sep comps f) sep '/'

/-- The paths list as built by the loop of lines 4 to 10: for each walked
file that matches, its normalized relative path, in traversal order. -/
def collectPaths (sep : Char) (t : FSTree) : List String :=
  (walkFiles t).filterMap
    (fun cf => if matchesMidi cf.2 then some (normRel sep cf.1 cf.2) else none)

/-- The paths list after paths.sort() on line 11. A missing root gives
the empty list: os.walk yields nothing when the root cannot be scanned
(its default onerror = None swallows the OSError). -/
def manifestPaths (sep : Char) (fsRoot : Option FSTree) : List String :=
  (match fsRoot with
   | none => []
   | some t => collectPaths sep t).insertionSort pyLE

/-- Lowercase hexadecimal digit, as used by the %04x escape format of
the json module. -/
def hexDigit (n : Nat) : Char :=
  if n < 10 then Char.ofNat (48 + n) else Char.ofNat (87 + n)

/-- Models the per-character escaping of json.dump with
ensure_ascii=False: backslash, double quote and the control characters
below 0x20 are escaped (with short escapes for backspace, form feed,
newline, carriage return, tab); every other character, including every
non-ASCII character, is emitted literally. -/
def jsonEscapeChar (c : Char) : List Char :=
  if c = '\\' then ['\\', '\\']
  else if c = '"' then ['\\', '"']
  else if c = Char.ofNat 8 then ['\\', 'b']
  else if c = Char.ofNat 12 then ['\\', 'f']
  else if c = '\n' then ['\\', 'n']
  else if c = Char.ofNat 13 then ['\\', 'r']
  else if c = '\t' then ['\\', 't']
  else if c.toNat < 32 then
    ['\\', 'u', '0', '0', hexDigit (c.toNat / 16), hexDigit (c.toNat % 16)]
  else [c]

/-- A JSON string literal for s: quotes around the escaped characters. -/
def jsonQuote (s : String) : String :=
  String.mk ('"' :: s.data.flatMap jsonEscapeChar ++ ['"'])

/-- Models json.dump(paths, fh, ensure_ascii=False, indent=2) of line
13: the empty list is serialized as a bare empty array; a non-empty list
is serialized over several lines, each element indented by two spaces,
elements separated by a comma and newline. -/
def jsonSerialize (l : List String) : String :=
  match l with
  | [] => "[]"
  | _ =>
    "[\n" ++ String.intercalate (",\n") (l.map (fun s => "  " ++ jsonQuote s)) ++ "\n]"

/-- The observable outcome of one run of the script: the content written
to the output path (none when no complete write happened), the standard
output text, and the process exit code. -/
structure RunResult : Type where
  written : Option String
  stdout : String
  exitCode : Nat
deriving DecidableEq, Repr

/-- Models one run of the script. When the output file can be opened and
written (writeOk), the serialized manifest is written and the summary
line of line 15 is printed, exiting 0. When opening or writing fails,
the uncaught OSError aborts the script before the print statement:
nothing is printed on standard output and the interpreter exits with a
non-zero code. -/
def generateManifest (sep : Char) (fsRoot : Option FSTree) (writeOk : Bool) : RunResult :=
  let paths := manifestPaths sep fsRoot
  if writeOk then
    { written := some (jsonSerialize paths)
      stdout := "Generated manifest with " ++ toString paths.length ++ " MIDI files."
      exitCode := 0 }
  else
    { written := none, stdout := "", exitCode := 1 }

/-- Models os.path.splitext of Python on a bare file name: the extension
is the suffix starting at the last dot, except that a run of leading
dots never starts an extension (so the extension of a pure dotfile name
is empty). -/
def splitextExt (f : String) : String :=
  let cs := f.data
  let lead := cs.takeWhile (fun c => c = '.')
  let rest := cs.drop lead.length
  if rest.contains '.' then
    String.mk ('.' :: (rest.reverse.takeWhile (fun c => c ≠ '.')).reverse)
  else ""

/-! Helper lemmas relating the embedded definitions. -/

theorem pyLE_iff (a b : String) : pyLE a b ↔ a ≤ b := by
  rw [String.le_iff_toList_le, ← not_lt]
  exact not_congr (List.lt_iff_lex_lt b.data a.data)

instance : IsTotal String pyLE :=
  ⟨fun a b => by rw [pyLE_iff, pyLE_iff]; exact le_total a b⟩

instance : IsTrans String pyLE :=
  ⟨fun a b c h1 h2 => by
    rw [pyLE_iff] at h1 h2 ⊢; exact le_trans h1 h2⟩

instance : IsAntisymm String pyLE :=
  ⟨fun a b h1 h2 => by
    rw [pyLE_iff] at h1 h2; exact le_antisymm h1 h2⟩

mutual

/-- The walk with per-level sorting visits exactly the files of the raw
enumeration, in a possibly different order. -/
theorem walkFiles_perm_rawFiles : ∀ t : FSTree, List.Perm (walkFiles t) (rawFiles t)
  | FSTree.node dirs files => by
    rw [walkFiles, rawFiles]
    refine List.Perm.append ((List.perm_insertionSort pyLE files).map _) ?_
    exact ((List.perm_insertionSort dirLE (walkDirs dirs)).flatMap_right _).trans
      (walkDirs_flat_perm_rawDirs dirs)

/-- Flattening the walked subtrees, in enumeration order, gives a
permutation of the raw enumeration of the subtrees. -/
theorem walkDirs_flat_perm_rawDirs : ∀ d : FSDirs,
    List.Perm
      ((walkDirs d).flatMap (fun dw => dw.2.map (fun cf => (dw.1 :: cf.1, cf.2))))
      (rawDirs d)
  | FSDirs.nil => List.Perm.refl []
  | FSDirs.cons name tree rest => by
    rw [walkDirs, rawDirs, List.flatMap_cons]
    exact List.Perm.append ((walkFiles_perm_rawFiles tree).map _)
      (walkDirs_flat_perm_rawDirs rest)

end

/-- Two trees that enumerate the same multiset of files collect
permuted path lists. -/
theorem collectPaths_perm (sep : Char) {t1 t2 : FSTree}
    (h : List.Perm (rawFiles t1) (rawFiles t2)) :
    List.Perm (collectPaths sep t1) (collectPaths sep t2) :=
  List.Perm.filterMap _
    ((walkFiles_perm_rawFiles t1).trans (h.trans (walkFiles_perm_rawFiles t2).symm))

/-- The globally sorted manifest list is determined by the multiset of
enumerated files: any two enumeration orders give equal output lists. -/
theorem manifestPaths_eq_of_raw_perm (sep : Char) {t1 t2 : FSTree}
    (h : List.Perm (rawFiles t1) (rawFiles t2)) :
    manifestPaths sep (some t1) = manifestPaths sep (some t2) := by
  apply List.eq_of_perm_of_sorted (r := pyLE)
  · exact (List.perm_insertionSort pyLE _).trans
      ((collectPaths_perm sep h).trans (List.perm_insertionSort pyLE _).symm)
  · exact List.sorted_insertionSort pyLE _
  · exact List.sorted_insertionSort pyLE _

/-- Membership in the manifest list: exactly the normalized relative
paths of the walked files whose name matches the rule. -/
theorem mem_manifestPaths (sep : Char) (t : FSTree) (s : String) :
    s ∈ manifestPaths sep (some t) ↔
      ∃ cf, cf ∈ walkFiles t ∧ matchesMidi cf.2 = true ∧ normRel sep cf.1 cf.2 = s := by
  show s ∈ (collectPaths sep t).insertionSort pyLE ↔ _
  rw [List.mem_insertionSort, collectPaths, List.mem_filterMap]
  constructor
  · rintro ⟨cf, hmem, hf⟩
    by_cases hm : matchesMidi cf.2
    · rw [if_pos hm] at hf
      exact ⟨cf, hmem, hm, Option.some.inj hf⟩
    · rw [if_neg hm] at hf
      cases hf
  · rintro ⟨cf, hmem, hm, hs⟩
    exact ⟨cf, hmem, by rw [if_pos hm, hs]⟩

/-- A character that is not a control character, not a double quote and
not a backslash is emitted unescaped by the serializer. -/
theorem jsonEscapeChar_eq_self {c : Char} (h32 : 32 ≤ c.toNat)
    (hq : c ≠ '"') (hb : c ≠ '\\') : jsonEscapeChar c = [c] := by
  have hlt : ¬ c.toNat < 32 := by omega
  have h8 : c ≠ Char.ofNat 8 := fun e => by subst e; exact hlt (by decide)
  have h12 : c ≠ Char.ofNat 12 := fun e => by subst e; exact hlt (by decide)
  have hn : c ≠ '\n' := fun e => by subst e; exact hlt (by decide)
  have h13 : c ≠ Char.ofNat 13 := fun e => by subst e; exact hlt (by decide)
  have ht : c ≠ '\t' := fun e => by subst e; exact hlt (by decide)
  rw [jsonEscapeChar, if_neg hb, if_neg hq, if_neg h8, if_neg h12, if_neg hn,
    if_neg h13, if_neg ht, if_neg hlt]

/-! Concrete filesystem states used by scenario claims and witnesses. -/

/-- Scenario A of the spec: a.mid at the root, B.MIDI and c.txt inside
the subdirectory sub. -/
def scenarioATree : FSTree :=
  FSTree.node
    (FSDirs.cons ("sub") (FSTree.node FSDirs.nil ["B.MIDI", "c.txt"]) FSDirs.nil)
    ["a.mid"]

/-- Scenario D of the spec: song.mid under x/y/z and song2.midi under x. -/
def scenarioDTree : FSTree :=
  FSTree.node
    (FSDirs.cons ("x")
      (FSTree.node
        (FSDirs.cons ("y")
          (FSTree.node
            (FSDirs.cons ("z") (FSTree.node FSDirs.nil ["song.mid"]) FSDirs.nil)
            [])
          FSDirs.nil)
        ["song2.midi"])
      FSDirs.nil)
    []

/-- One directory whose two files are enumerated b.mid before a.mid. -/
def enumBA : FSTree := FSTree.node FSDirs.nil ["b.mid", "a.mid"]

/-- The same directory with the files enumerated a.mid before b.mid. -/
def enumAB : FSTree := FSTree.node FSDirs.nil ["a.mid", "b.mid"]

/-- Two subdirectories enumerated q before p, each holding one file. -/
def dirsQP : FSTree :=
  FSTree.node
    (FSDirs.cons ("q") (FSTree.node FSDirs.nil ["x.mid"])
      (FSDirs.cons ("p") (FSTree.node FSDirs.nil ["y.mid"]) FSDirs.nil))
    []

/-- The same two subdirectories enumerated p before q. -/
def dirsPQ : FSTree :=
  FSTree.node
    (FSDirs.cons ("p") (FSTree.node FSDirs.nil ["y.mid"])
      (FSDirs.cons ("q") (FSTree.node FSDirs.nil ["x.mid"]) FSDirs.nil))
    []

/-- One subdirectory with one matching file, for the separator claim. -/
def sepTree : FSTree :=
  FSTree.node (FSDirs.cons ("a") (FSTree.node FSDirs.nil ["b.mid"]) FSDirs.nil) []

/-! Claims. -/

/-- C1, counterexample: the claim says a missing root makes the run fail
with a non-zero exit and nothing written, but on the missing root the
script exits 0 and writes the empty array to the output path (os.walk
swallows the scan error and yields nothing). -/
theorem c1_missing_root_counterexample :
    ¬ ((generateManifest '/' none true).exitCode ≠ 0 ∧
       (generateManifest '/' none true).written = none) := by
  decide

/-- C1, amended: if the root directory does not exist (or cannot be
read, or is not a directory), os.walk silently yields nothing, so,
provided the output path itself is writable, the run succeeds: it
writes the empty JSON array to the output path, prints the summary line
with count zero, and exits with code 0. -/
theorem c1_missing_root_silent_success (sep : Char) :
    generateManifest sep none true =
      { written := some ("[]"),
        stdout := "Generated manifest with 0 MIDI files.",
        exitCode := 0 } := by
  have h : generateManifest sep none true = generateManifest '/' none true := rfl
  rw [h]
  decide

/-- C1, witness for the amended statement at a concrete separator. -/
theorem c1_missing_root_silent_success_witness :
    generateManifest '/' none true =
      { written := some ("[]"),
        stdout := "Generated manifest with 0 MIDI files.",
        exitCode := 0 } :=
  c1_missing_root_silent_success '/'

/-- C2: a file under the root appears in the manifest exactly when its
name, lowercased, ends with .mid or .midi; near misses and other
extensions are excluded, case variants are included, and the entry keeps
the original casing (Scenario A gives a.mid and sub/B.MIDI verbatim). -/
theorem c2_filter_rule :
    (∀ (sep : Char) (t : FSTree) (s : String),
        s ∈ manifestPaths sep (some t) ↔
          ∃ cf, cf ∈ walkFiles t ∧ matchesMidi cf.2 = true ∧ normRel sep cf.1 cf.2 = s)
    ∧ matchesMidi ("a.MID") = true
    ∧ matchesMidi ("B.MIDI") = true
    ∧ matchesMidi ("a.midX") = false
    ∧ matchesMidi ("noext") = false
    ∧ matchesMidi ("c.txt") = false
    ∧ manifestPaths '/' (some scenarioATree) = ["a.mid", "sub/B.MIDI"] :=
  ⟨mem_manifestPaths, by decide, by decide, by decide, by decide, by decide, by decide⟩

/-- C2, witness: the membership rule applied to the Scenario A state at
the matching file B.MIDI in the subdirectory sub. -/
theorem c2_filter_rule_witness :
    ("sub/B.MIDI" : String) ∈ manifestPaths '/' (some scenarioATree) :=
  (c2_filter_rule.1 '/' scenarioATree ("sub/B.MIDI")).mpr
    ⟨(["sub"], "B.MIDI"), by decide, by decide, by decide⟩

/-- C3: the output array is sorted ascending by plain code point string
comparison on the normalized relative paths, and the Scenario D state
yields exactly the expected two-element array in the expected order. -/
theorem c3_sorted_output :
    (∀ (sep : Char) (fsRoot : Option FSTree),
        List.Sorted (· ≤ ·) (manifestPaths sep fsRoot))
    ∧ manifestPaths '/' (some scenarioDTree) = ["x/song2.midi", "x/y/z/song.mid"] := by
  refine ⟨fun sep fsRoot => ?_, by decide⟩
  exact (List.sorted_insertionSort pyLE _).imp (fun h => (pyLE_iff _ _).mp h)

/-- C3, witness: sortedness evaluated on the Scenario D state. -/
theorem c3_sorted_output_witness :
    List.Sorted (· ≤ ·) (manifestPaths '/' (some scenarioDTree)) :=
  c3_sorted_output.1 '/' (some scenarioDTree)

/-- C4: the full run outcome, written bytes included, is a deterministic
function of the filesystem state: any two enumeration orders of the same
files give byte-identical results (re-running unchanged is the special
case of equal trees). -/
theorem c4_deterministic_output (sep : Char) (t1 t2 : FSTree) (writeOk : Bool)
    (h : List.Perm (rawFiles t1) (rawFiles t2)) :
    generateManifest sep (some t1) writeOk = generateManifest sep (some t2) writeOk := by
  unfold generateManifest
  rw [manifestPaths_eq_of_raw_perm sep h]

/-- C4, witness: the same directory enumerated in two orders gives the
same run outcome. -/
theorem c4_deterministic_output_witness :
    generateManifest '/' (some enumBA) true = generateManifest '/' (some enumAB) true :=
  c4_deterministic_output '/' enumBA enumAB true (by decide)

/-- C5: with a backslash as the platform separator, no manifest entry
contains a backslash: the replace step on line 10 removes every
occurrence of the separator. -/
theorem c5_no_backslash (fsRoot : Option FSTree) (s : String)
    (h : s ∈ manifestPaths '\\' fsRoot) : '\\' ∉ s.data := by
  cases fsRoot with
  | none => exact absurd h (List.not_mem_nil s)
  | some t =>
    rcases (mem_manifestPaths '\\' t s).mp h with ⟨cf, _, _, hs⟩
    subst hs
    intro hmem
    simp only [normRel, replaceChar] at hmem
    rcases List.mem_map.mp hmem with ⟨c, _, hc⟩
    by_cases hcb : c = '\\'
    · rw [if_pos hcb] at hc
      exact absurd hc (by decide)
    · rw [if_neg hcb] at hc
      exact hcb hc

/-- C5, witness: a nested matching file on a backslash host yields the
forward slash entry, which contains no backslash. -/
theorem c5_no_backslash_witness : '\\' ∉ ("a/b.mid" : String).data :=
  c5_no_backslash (some sepTree) ("a/b.mid") (by decide)

/-- C6: the standard output line is exactly the fixed sentence with the
decimal length of the written array, and the empty root writes the empty
array with the count zero message. -/
theorem c6_count_message :
    (∀ (sep : Char) (fsRoot : Option FSTree),
        (generateManifest sep fsRoot true).stdout =
          "Generated manifest with " ++ toString (manifestPaths sep fsRoot).length ++
            " MIDI files."
        ∧ (generateManifest sep fsRoot true).written =
            some (jsonSerialize (manifestPaths sep fsRoot)))
    ∧ generateManifest '/' (some (FSTree.node FSDirs.nil [])) true =
        { written := some ("[]"),
          stdout := "Generated manifest with 0 MIDI files.",
          exitCode := 0 } :=
  ⟨fun sep fsRoot => ⟨rfl, rfl⟩, by decide⟩

/-- C8: when the output path cannot be opened or written, the run exits
with the non-zero code 1 and prints nothing on standard output, so the
success summary line never appears. -/
theorem c8_write_failure (sep : Char) (fsRoot : Option FSTree) :
    (generateManifest sep fsRoot false).exitCode = 1 ∧
      (generateManifest sep fsRoot false).stdout = "" :=
  ⟨rfl, rfl⟩

/-- C9: the manifest list depends only on the multiset of enumerated
files: any two enumeration orders of the same files under the root give
the identical sorted array, because a global sort follows collection. -/
theorem c9_order_independence (sep : Char) (t1 t2 : FSTree)
    (h : List.Perm (rawFiles t1) (rawFiles t2)) :
    manifestPaths sep (some t1) = manifestPaths sep (some t2) :=
  manifestPaths_eq_of_raw_perm sep h

/-- C9, witness: two subdirectories enumerated in opposite orders give
the identical manifest list. -/
theorem c9_order_independence_witness :
    manifestPaths '/' (some dirsQP) = manifestPaths '/' (some dirsPQ) :=
  c9_order_independence '/' dirsQP dirsPQ (by decide)

/-- C10: a file whose whole name is .mid or .midi has an empty extension
under conventional stem and extension splitting, yet is included in the
manifest, because the rule is a suffix check on the whole name. -/
theorem c10_bare_dotfile_included :
    splitextExt (".mid") = "" ∧ splitextExt (".midi") = ""
    ∧ matchesMidi (".mid") = true ∧ matchesMidi (".midi") = true
    ∧ manifestPaths '/' (some (FSTree.node FSDirs.nil [".mid", ".midi"])) =
        [".mid", ".midi"] := by
  decide

/-- Escaping a list of characters that need no escape is the identity. -/
theorem flatMap_jsonEscapeChar_eq {l : List Char}
    (h : ∀ c ∈ l, 32 ≤ c.toNat ∧ c ≠ '"' ∧ c ≠ '\\') :
    l.flatMap jsonEscapeChar = l := by
  induction l with
  | nil => rfl
  | cons c cs ih =>
    rw [List.flatMap_cons]
    rcases h c (List.mem_cons_self c cs) with ⟨h1, h2, h3⟩
    rw [jsonEscapeChar_eq_self h1 h2 h3, ih (fun d hd => h d (List.mem_cons_of_mem c hd))]
    rfl

/-- C7: the serialized output is a JSON array, with the empty array on
one line and otherwise one entry per line indented by two spaces;
non-ASCII characters are never escaped, and a string of ordinary
printable characters appears literally between its quotes. -/
theorem c7_json_format :
    (jsonSerialize [] = "[]")
    ∧ (∀ l : List String, l ≠ [] →
        jsonSerialize l =
          "[\n" ++ String.intercalate (",\n") (l.map (fun s => "  " ++ jsonQuote s)) ++ "\n]")
    ∧ (∀ c : Char, 128 ≤ c.toNat → jsonEscapeChar c = [c])
    ∧ (∀ s : String, (∀ c ∈ s.data, 32 ≤ c.toNat ∧ c ≠ '"' ∧ c ≠ '\\') →
        jsonQuote s = "\"" ++ s ++ "\"") := by
  refine ⟨rfl, ?_, ?_, ?_⟩
  · intro l h
    cases l with
    | nil => exact absurd rfl h
    | cons a as => rfl
  · intro c h
    refine jsonEscapeChar_eq_self (by omega) ?_ ?_
    · exact fun e => by subst e; exact absurd h (by decide)
    · exact fun e => by subst e; exact absurd h (by decide)
  · intro s h
    apply String.ext
    show '"' :: s.data.flatMap jsonEscapeChar ++ ['"'] = _
    rw [flatMap_jsonEscapeChar_eq h]
    simp [String.data_append]

/-- C7, witness: a non-ASCII character is emitted literally, and a one
entry array with a non-ASCII name serializes to the indented form with
the name verbatim. -/
theorem c7_json_format_witness :
    jsonEscapeChar 'é' = ['é'] ∧ jsonSerialize ["é.mid"] = "[\n  \"é.mid\"\n]" :=
  ⟨c7_json_format.2.2.1 'é' (by decide),
   by rw [c7_json_format.2.1 (["é.mid"]) (by decide)]; decide⟩
